import Mathlib

/-!
Verification development for the handy-functions request/retry utility.

The definitions below are a shallow embedding of `src/retry.ts`,
`src/try-catch.ts` and `src/fetcher.ts`:

* JavaScript runtime values that flow through the library (thrown errors,
  cancellation reasons, resolved data) are modelled by the inductive `JSVal`;
  the nullish values `null` and `undefined` are explicit constructors so the
  `??` operator can be modelled exactly.
* Promise-returning code is modelled with `Except JSVal`: `Except.ok v` is a
  promise resolving with `v`, `Except.error e` a promise rejecting with `e`.
* The `AbortSignal` is modelled by `SignalM`: an optional abstract activation
  time together with the signal's reason.  Time advances by one tick at each
  observable checkpoint of the retry loop: during the iteration whose attempt
  counter is `a`, the catch-block `signal.aborted` check happens at tick
  `3*a`, the inter-attempt delay starts at tick `3*a + 1` and its timer
  elapses at tick `3*a + 2` (the concrete millisecond duration is abstracted
  to one tick).
-/

/-- A JavaScript runtime value, as far as the library observes one. -/
inductive JSVal where
  | jsNull
  | jsUndefined
  | jsBool (b : Bool)
  | jsNum (n : Int)
  | jsStr (s : String)
  /-- An `Error` object carrying a message. -/
  | jsError (message : String)
  deriving DecidableEq, Repr

/-- `null` and `undefined` are the two nullish values of JavaScript. -/
def isNullish : JSVal → Bool
  | JSVal.jsNull => true
  | JSVal.jsUndefined => true
  | _ => false

/-- The JavaScript nullish-coalescing operator `x ?? y`. -/
def jsCoalesce (x y : JSVal) : JSVal :=
  if isNullish x then y else x

/-- Model of an `AbortSignal`: it becomes aborted at tick `abortTime` (never,
when `none`) and carries the caller-supplied cancellation `reason`. -/
structure SignalM where
  abortTime : Option Nat
  reason : JSVal
  deriving DecidableEq, Repr

/-- `signal?.aborted` observed at tick `t` (a missing signal is never aborted). -/
def sigAborted (signal : Option SignalM) (t : Nat) : Bool :=
  match signal with
  | none => false
  | some sg =>
    match sg.abortTime with
    | none => false
    | some a => decide (a ≤ t)

/-- `signal?.reason` (a missing signal yields `undefined`). -/
def sigReason (signal : Option SignalM) : JSVal :=
  match signal with
  | none => JSVal.jsUndefined
  | some sg => sg.reason

/-- The `delay` retry option: a fixed number of milliseconds or a function of
the attempt counter (`retry.ts`, line 14). -/
inductive DelayOpt where
  | fixed (ms : Int)
  | func (f : Nat → Int)

/-- `typeof delay === "function" ? delay(attempt) : Math.max(delay, 0)`
(`retry.ts`, line 117). -/
def delayFor : DelayOpt → Nat → Int
  | DelayOpt.func f, attempt => f attempt
  | DelayOpt.fixed d, _ => max d 0

/-- The default `retryable` predicate `() => true` (`retry.ts`, line 89). -/
def defaultRetryable : JSVal → Nat → Bool := fun _ _ => true

/-- `wait(ms, signal)` (`retry.ts`, lines 32–52), entered at tick `tEntry`
with its timer elapsing at tick `tElapse`.  If the signal is already aborted
at entry the promise rejects immediately with the signal's reason; if the
signal aborts before the timer elapses, the timer is cleared and the promise
rejects with the reason; otherwise it resolves.  The millisecond duration
`ms` only determines where `tElapse` lies on the abstract timeline. -/
def waitRun (ms : Int) (signal : Option SignalM) (tEntry tElapse : Nat) :
    Except JSVal Unit :=
  if sigAborted signal tEntry then Except.error (sigReason signal)
  else if sigAborted signal tElapse then Except.error (sigReason signal)
  else Except.ok ()

/-- The body of the `while (attempt < attempts)` loop of `retry`
(`retry.ts`, lines 99–123), with `fuel = attempts - attempt` so that
`fuel = 0` is the loop exit (the trailing `throw lastError`).

`op k` is the outcome of the `k`-th (0-based) invocation of the resolved
target.  The returned pair is (total number of invocations of the target,
settled outcome of the call). -/
def retryGo {α : Type} (op : Nat → Except JSVal α) (retryable : JSVal → Nat → Bool)
    (delay : DelayOpt) (signal : Option SignalM) (attempts : Nat) :
    Nat → Nat → JSVal → Nat × Except JSVal α
  | 0, attempt, lastError => (attempt, Except.error lastError)
  | fuel + 1, attempt, _lastError =>
    match op attempt with
    | Except.ok value => (attempt + 1, Except.ok value)
    | Except.error e =>
      if sigAborted signal (3 * attempt) then
        (attempt + 1, Except.error (jsCoalesce (sigReason signal) e))
      else
        let shouldRetry := decide (attempt + 1 < attempts) && retryable e (attempt + 1)
        if shouldRetry then
          match waitRun (delayFor delay (attempt + 1)) signal (3 * attempt + 1) (3 * attempt + 2) with
          | Except.error reason => (attempt + 1, Except.error reason)
          | Except.ok _ => retryGo op retryable delay signal attempts fuel (attempt + 1) e
        else (attempt + 1, Except.error e)

/-- `retry(target, retryOptions)` (`retry.ts`, lines 80–124): validates
`attempts`, then runs the attempt loop starting from `attempt = 0` with
`lastError` still `undefined`.  The first component of the result is the
number of times the target operation was invoked. -/
def retryRun {α : Type} (op : Nat → Except JSVal α) (retryable : JSVal → Nat → Bool)
    (delay : DelayOpt) (signal : Option SignalM) (attempts : Int) :
    Nat × Except JSVal α :=
  if attempts < 1 then
    (0, Except.error (JSVal.jsError "retry: attempts must be at least 1"))
  else retryGo op retryable delay signal attempts.toNat attempts.toNat 0 JSVal.jsUndefined

/-- `Math.round` for non-negative arguments: round half away from zero. -/
def jsRound (x : ℚ) : ℤ := Int.floor (x + 1 / 2)

/-- `defaultDelay` (`retry.ts`, lines 26–30) with the `Math.random()` sample
`rand ∈ [0, 1)` made explicit: jitter is `rand * 0.3 + 0.85` and the result is
`Math.round(200 * 2 ** attempt * jitter)`. -/
def defaultDelay (attempt : Nat) (rand : ℚ) : ℤ :=
  jsRound (200 * 2 ^ attempt * (rand * (3 / 10) + 17 / 20))

inductive Json where
  | jnull
  | jbool (b : Bool)
  | jnum (q : ℚ)
  | jstr (s : String)
  | jarr (elems : List Json)
  | jobj (fields : List (String × Json))

/-- JS whitespace test for trim. -/
def isWsChar (c : Char) : Bool :=
  c = ' ' ∨ c = '\t' ∨ c = '\n' ∨ c = '\r' ∨ c = Char.ofNat 11 ∨ c = Char.ofNat 12

def dropLeadingWs : List Char → List Char
  | [] => []
  | c :: rest => if isWsChar c then dropLeadingWs rest else c :: rest

/-- `String.prototype.trim`. -/
def strTrim (s : String) : String :=
  String.mk ((dropLeadingWs ((dropLeadingWs s.data).reverse)).reverse)

def charLower (c : Char) : Char :=
  if 'A' ≤ c ∧ c ≤ 'Z' then Char.ofNat (c.toNat + 32) else c

/-- `String.prototype.toLowerCase` (ASCII range). -/
def strLower (s : String) : String :=
  String.mk (s.data.map charLower)

def listIsPrefixOf : List Char → List Char → Bool
  | [], _ => true
  | _ :: _, [] => false
  | p :: ps, c :: cs => p == c && listIsPrefixOf ps cs

def listContainsSub : List Char → List Char → Bool
  | [], pat => pat.isEmpty
  | c :: cs, pat => listIsPrefixOf pat (c :: cs) || listContainsSub cs pat

/-- `String.prototype.includes`. -/
def containsSubstr (s pat : String) : Bool :=
  listContainsSub s.data pat.data

def skipWs : List Char → List Char
  | [] => []
  | c :: rest => if c = ' ' ∨ c = '\t' ∨ c = '\n' ∨ c = '\r' then skipWs rest else c :: rest

def hexVal (c : Char) : Option Nat :=
  if '0' ≤ c ∧ c ≤ '9' then some (c.toNat - 48)
  else if 'a' ≤ c ∧ c ≤ 'f' then some (c.toNat - 87)
  else if 'A' ≤ c ∧ c ≤ 'F' then some (c.toNat - 55)
  else none

def escChar (e : Char) : Option Char :=
  if e = '"' then some '"'
  else if e = '\\' then some '\\'
  else if e = '/' then some '/'
  else if e = 'b' then some (Char.ofNat 8)
  else if e = 'f' then some (Char.ofNat 12)
  else if e = 'n' then some '\n'
  else if e = 'r' then some '\r'
  else if e = 't' then some '\t'
  else none

def parseStrChars : Nat → List Char → Except Unit (List Char × List Char)
  | 0, _ => Except.error ()
  | fuel + 1, cs =>
    match cs with
    | [] => Except.error ()
    | '"' :: rest => Except.ok ([], rest)
    | '\\' :: cs2 =>
      match cs2 with
      | 'u' :: h1 :: h2 :: h3 :: h4 :: rest =>
        match hexVal h1, hexVal h2, hexVal h3, hexVal h4 with
        | some a, some b, some c, some d =>
          match parseStrChars fuel rest with
          | Except.ok (out, rem) =>
            Except.ok (Char.ofNat (a * 4096 + b * 256 + c * 16 + d) :: out, rem)
          | Except.error _ => Except.error ()
        | _, _, _, _ => Except.error ()
      | e :: rest =>
        match escChar e with
        | some c =>
          match parseStrChars fuel rest with
          | Except.ok (out, rem) => Except.ok (c :: out, rem)
          | Except.error _ => Except.error ()
        | none => Except.error ()
      | [] => Except.error ()
    | c :: rest =>
      match parseStrChars fuel rest with
      | Except.ok (out, rem) => Except.ok (c :: out, rem)
      | Except.error _ => Except.error ()

def takeDigits : List Char → List Char × List Char
  | [] => ([], [])
  | c :: rest =>
    if c.isDigit then
      match takeDigits rest with
      | (ds, rem) => (c :: ds, rem)
    else ([], c :: rest)

def digitsToNat (ds : List Char) : Nat :=
  ds.foldl (fun a c => a * 10 + (c.toNat - 48)) 0

def parseExpDigits (base : ℚ) (cs : List Char) : Except Unit (ℚ × List Char) :=
  let signed : Int × List Char :=
    match cs with
    | '+' :: rest => (1, rest)
    | '-' :: rest => (-1, rest)
    | _ => (1, cs)
  match takeDigits signed.2 with
  | ([], _) => Except.error ()
  | (ds, rest) => Except.ok (base * (10 : ℚ) ^ (signed.1 * (digitsToNat ds : Int)), rest)

def parseExponent (base : ℚ) (cs : List Char) : Except Unit (ℚ × List Char) :=
  match cs with
  | 'e' :: rest => parseExpDigits base rest
  | 'E' :: rest => parseExpDigits base rest
  | _ => Except.ok (base, cs)

def parseNumber (cs : List Char) : Except Unit (ℚ × List Char) :=
  let signed : ℚ × List Char :=
    match cs with
    | '-' :: rest => (-1, rest)
    | _ => (1, cs)
  match takeDigits signed.2 with
  | ([], _) => Except.error ()
  | (ds, cs2) =>
    match cs2 with
    | '.' :: rest =>
      match takeDigits rest with
      | ([], _) => Except.error ()
      | (fs, cs3) =>
        parseExponent (signed.1 * ((digitsToNat ds : ℚ) +
          (digitsToNat fs : ℚ) / (10 : ℚ) ^ fs.length)) cs3
    | _ => parseExponent (signed.1 * (digitsToNat ds : ℚ)) cs2

inductive JMode where
  | value
  | members (acc : List (String × Json))
  | elems (acc : List Json)

def parseStep : Nat → JMode → List Char → Except Unit (Json × List Char)
  | 0, _, _ => Except.error ()
  | fuel + 1, JMode.value, cs =>
    match skipWs cs with
    | [] => Except.error ()
    | '{' :: rest =>
      match skipWs rest with
      | '}' :: rem => Except.ok (Json.jobj [], rem)
      | cs2 => parseStep fuel (JMode.members []) cs2
    | '[' :: rest =>
      match skipWs rest with
      | ']' :: rem => Except.ok (Json.jarr [], rem)
      | cs2 => parseStep fuel (JMode.elems []) cs2
    | '"' :: rest =>
      match parseStrChars (rest.length + 1) rest with
      | Except.ok (out, rem) => Except.ok (Json.jstr (String.mk out), rem)
      | Except.error _ => Except.error ()
    | 't' :: 'r' :: 'u' :: 'e' :: rest => Except.ok (Json.jbool true, rest)
    | 'f' :: 'a' :: 'l' :: 's' :: 'e' :: rest => Except.ok (Json.jbool false, rest)
    | 'n' :: 'u' :: 'l' :: 'l' :: rest => Except.ok (Json.jnull, rest)
    | cs1 =>
      match parseNumber cs1 with
      | Except.ok (q, rem) => Except.ok (Json.jnum q, rem)
      | Except.error _ => Except.error ()
  | fuel + 1, JMode.members acc, cs =>
    match skipWs cs with
    | '"' :: rest =>
      match parseStrChars (rest.length + 1) rest with
      | Except.ok (key, cs2) =>
        match skipWs cs2 with
        | ':' :: cs3 =>
          match parseStep fuel JMode.value cs3 with
          | Except.ok (v, cs4) =>
            match skipWs cs4 with
            | ',' :: cs5 => parseStep fuel (JMode.members (acc ++ [(String.mk key, v)])) cs5
            | '}' :: cs5 => Except.ok (Json.jobj (acc ++ [(String.mk key, v)]), cs5)
            | _ => Except.error ()
          | Except.error _ => Except.error ()
        | _ => Except.error ()
      | Except.error _ => Except.error ()
    | _ => Except.error ()
  | fuel + 1, JMode.elems acc, cs =>
    match parseStep fuel JMode.value cs with
    | Except.ok (v, cs2) =>
      match skipWs cs2 with
      | ',' :: cs3 => parseStep fuel (JMode.elems (acc ++ [v])) cs3
      | ']' :: cs3 => Except.ok (Json.jarr (acc ++ [v]), cs3)
      | _ => Except.error ()
    | Except.error _ => Except.error ()

def jsonParse (s : String) : Except Unit Json :=
  match parseStep (2 * s.length + 8) JMode.value s.data with
  | Except.ok (j, rest) =>
    match skipWs rest with
    | [] => Except.ok j
    | _ => Except.error ()
  | Except.error _ => Except.error ()

def escapeChar (c : Char) : String :=
  if c = '"' then "\\\""
  else if c = '\\' then "\\\\"
  else if c = '\n' then "\\n"
  else if c = '\r' then "\\r"
  else if c = '\t' then "\\t"
  else String.singleton c

def jsonQuote (s : String) : String :=
  "\"" ++ String.join (s.data.map escapeChar) ++ "\""

def jnumToString (q : ℚ) : String :=
  if q.den = 1 then toString q.num else toString q.num ++ "/" ++ toString q.den

mutual

def jsonStringify : Json → String
  | Json.jnull => "null"
  | Json.jbool true => "true"
  | Json.jbool false => "false"
  | Json.jnum q => jnumToString q
  | Json.jstr s => jsonQuote s
  | Json.jarr es => "[" ++ stringifyElems es ++ "]"
  | Json.jobj fs => "\x7b" ++ stringifyFields fs ++ "\x7d"

def stringifyElems : List Json → String
  | [] => ""
  | [e] => jsonStringify e
  | e :: rest => jsonStringify e ++ "," ++ stringifyElems rest

def stringifyFields : List (String × Json) → String
  | [] => ""
  | [(k, v)] => jsonQuote k ++ ":" ++ jsonStringify v
  | (k, v) :: rest => jsonQuote k ++ ":" ++ jsonStringify v ++ "," ++ stringifyFields rest

end



def headersHas (hs : List (String × String)) (k : String) : Bool :=
  hs.any (fun p => p.1 == strLower k)

def headersGet (hs : List (String × String)) (k : String) : Option String :=
  (hs.find? (fun p => p.1 == strLower k)).map (fun p => p.2)

def headersSet (hs : List (String × String)) (k v : String) : List (String × String) :=
  if headersHas hs k then
    hs.map (fun p => if p.1 == strLower k then (p.1, v) else p)
  else hs ++ [(strLower k, v)]

def headersDelete (hs : List (String × String)) (k : String) : List (String × String) :=
  hs.filter (fun p => !(p.1 == strLower k))

def headersNormalize (hs : List (String × String)) : List (String × String) :=
  hs.foldl (fun acc p => headersSet acc p.1 p.2) []

inductive BodyInitV where
  | formData (entries : List (String × String))
  | jsObj (fields : List (String × Json))
  | jsArr (elems : List Json)
  | rawText (s : String)
  | rawOther (tag : String)

def shouldSerializeToJson : BodyInitV → Bool
  | BodyInitV.jsObj _ => true
  | BodyInitV.jsArr _ => true
  | _ => false

def bodyJson : BodyInitV → Json
  | BodyInitV.jsObj fs => Json.jobj fs
  | BodyInitV.jsArr es => Json.jarr es
  | _ => Json.jnull

inductive SentBody where
  | text (s : String)
  | formData (entries : List (String × String))
  | other (tag : String)

structure RequestOptionsV where
  method : String
  headers : List (String × String)
  body : Option BodyInitV

structure RequestInitV where
  method : String
  headers : List (String × String)
  body : Option SentBody

def buildRequest (options : RequestOptionsV) : RequestInitV :=
  let requestHeaders := headersNormalize options.headers
  match options.body with
  | none => ⟨options.method, requestHeaders, none⟩
  | some b =>
    match b with
    | BodyInitV.formData es =>
      ⟨options.method, headersDelete requestHeaders "Content-Type", some (SentBody.formData es)⟩
    | BodyInitV.jsObj fs =>
      let hs := if headersHas requestHeaders "Content-Type" then requestHeaders
        else headersSet requestHeaders "Content-Type" "application/json"
      ⟨options.method, hs, some (SentBody.text (jsonStringify (Json.jobj fs)))⟩
    | BodyInitV.jsArr es =>
      let hs := if headersHas requestHeaders "Content-Type" then requestHeaders
        else headersSet requestHeaders "Content-Type" "application/json"
      ⟨options.method, hs, some (SentBody.text (jsonStringify (Json.jarr es)))⟩
    | BodyInitV.rawText s => ⟨options.method, requestHeaders, some (SentBody.text s)⟩
    | BodyInitV.rawOther t => ⟨options.method, requestHeaders, some (SentBody.other t)⟩

structure ResponseM where
  status : Nat
  headers : List (String × String)
  body : String

def responseOk (r : ResponseM) : Bool :=
  decide (200 ≤ r.status) && decide (r.status ≤ 299)

def lookupField (fields : List (String × Json)) (k : String) : Option Json :=
  (fields.find? (fun p => p.1 == k)).map (fun p => p.2)

def extractErrorMessage (value : Json) : Option String :=
  match value with
  | Json.jstr s => if strTrim s ≠ "" then some s else none
  | Json.jobj fields =>
    match lookupField fields "message" with
    | some (Json.jstr m) => if strTrim m ≠ "" then some (strTrim m) else none
    | _ => none
  | _ => none

def statusFallback (status : Nat) : String :=
  "HTTP error! Status: " ++ toString status

def jsTruthyOr (x : Option String) (fallback : String) : String :=
  match x with
  | some s => if s = "" then fallback else s
  | none => fallback

def contentLengthZero (hs : List (String × String)) : Bool :=
  match headersGet hs "content-length" with
  | some v => strTrim v == "0"
  | none => false

def responseHasNoContent (method : String) (r : ResponseM) : Bool :=
  method == "HEAD" || r.status == 204 || r.status == 205 || r.status == 304 ||
    contentLengthZero r.headers

inductive FetchValue where
  | undef
  | json (j : Json)
  | text (s : String)

inductive FetchError where
  | httpError (message : String)
  | parseError

def classifyResponse (method : String) (r : ResponseM) : Except FetchError FetchValue :=
  if responseOk r = false then
    let extracted :=
      match jsonParse r.body with
      | Except.ok v => extractErrorMessage v
      | Except.error _ => none
    Except.error (FetchError.httpError (jsTruthyOr extracted (statusFallback r.status)))
  else if responseHasNoContent method r then Except.ok FetchValue.undef
  else
    match headersGet r.headers "content-type" with
    | some ct0 =>
      if (strLower ct0 != "") && containsSubstr (strLower ct0) "json" then
        if strTrim r.body = "" then Except.ok FetchValue.undef
        else
          match jsonParse r.body with
          | Except.ok j => Except.ok (FetchValue.json j)
          | Except.error _ => Except.error FetchError.parseError
      else Except.ok (FetchValue.text r.body)
    | none => Except.ok (FetchValue.text r.body)

def fetcherModel (transport : RequestInitV → ResponseM) (options : RequestOptionsV) :
    Except FetchError FetchValue :=
  classifyResponse (buildRequest options).method (transport (buildRequest options))

inductive TryCatchInput where
  | thunk (f : Unit → Except JSVal JSVal)
  | promise (p : Except JSVal JSVal)
  | urlObj (u : String)
  | value (v : JSVal)

def resolveInput (fetchModel : String → Except JSVal JSVal) :
    TryCatchInput → Except JSVal JSVal
  | TryCatchInput.thunk f => f ()
  | TryCatchInput.promise p => p
  | TryCatchInput.urlObj u => fetchModel u
  | TryCatchInput.value (JSVal.jsStr s) => fetchModel s
  | TryCatchInput.value v => Except.ok v

namespace HandyFn

def tryCatch (fetchModel : String → Except JSVal JSVal) (input : TryCatchInput) :
    JSVal × JSVal :=
  match resolveInput fetchModel input with
  | Except.ok data => (data, JSVal.jsNull)
  | Except.error error => (JSVal.jsNull, error)

end HandyFn

/-- Loop invariant for claim C1: once every remaining invocation fails and the
predicate always allows a retry, the loop runs its fuel down and ends with the
last error. -/
theorem retryGo_allFail {α : Type} (op : Nat → Except JSVal α) (errs : Nat → JSVal)
    (d : DelayOpt) (A : Nat) (hop : ∀ k, op k = Except.error (errs k)) :
    ∀ fuel attempt last, attempt + fuel = A → 1 ≤ fuel →
      retryGo op defaultRetryable d none A fuel attempt last
        = (A, Except.error (errs (A - 1))) := by
  intro fuel
  induction fuel with
  | zero => intro attempt last _ h1; omega
  | succ f ih =>
    intro attempt last hA _
    rw [retryGo, hop attempt]
    simp only [sigAborted, defaultRetryable, Bool.and_true, waitRun]
    by_cases hlt : attempt + 1 < A
    · have hd : decide (attempt + 1 < A) = true := by simp [hlt]
      simp only [hd, if_true, if_false, Bool.false_eq_true]
      exact ih (attempt + 1) (errs attempt) (by omega) (by omega)
    · have hd : decide (attempt + 1 < A) = false := by simp [hlt]
      have hA1 : attempt + 1 = A := by omega
      have hA2 : A - 1 = attempt := by omega
      simp only [hd, Bool.false_eq_true, if_false]
      rw [hA1, hA2]

/-- Claim C1: for every total attempt count N ≥ 1 and every target operation
that fails on every invocation, `retry` with the default retryable predicate
invokes the operation exactly N times and finally fails with the error raised
by the N-th (last) invocation. -/
theorem retry_allFailures_invokes_attempts_times {α : Type} (op : Nat → Except JSVal α)
    (errs : Nat → JSVal) (d : DelayOpt) (N : Nat) (hN : 1 ≤ N)
    (hop : ∀ k, op k = Except.error (errs k)) :
    retryRun op defaultRetryable d none (N : Int) = (N, Except.error (errs (N - 1))) := by
  rw [retryRun]
  have h1 : ¬((N : Int) < 1) := by exact_mod_cast Nat.not_lt.mpr hN
  rw [if_neg h1]
  have h2 : (N : Int).toNat = N := Int.toNat_ofNat N
  rw [h2]
  exact retryGo_allFail op errs d N hop N 0 JSVal.jsUndefined (by omega) hN

theorem retry_allFailures_witness :
    1 ≤ 3 ∧ (retryRun (fun k => Except.error (JSVal.jsNum k)) defaultRetryable
        (DelayOpt.fixed 0) none (3 : Int) : Nat × Except JSVal Unit)
      = (3, Except.error (JSVal.jsNum 2)) :=
  ⟨by decide,
    retry_allFailures_invokes_attempts_times (fun k => Except.error (JSVal.jsNum k))
      (fun k => JSVal.jsNum k) (DelayOpt.fixed 0) 3 (by decide) (fun _ => rfl)⟩

/-- Loop invariant for claim C2: the loop stops at the first attempt counter
value k at which the retryable predicate answers false. -/
theorem retryGo_stop_at_k {α : Type} (op : Nat → Except JSVal α) (errs : Nat → JSVal)
    (retryable : JSVal → Nat → Bool) (d : DelayOpt) (A k : Nat)
    (hk : 1 ≤ k) (hkA : k < A)
    (hop : ∀ j, j < k → op j = Except.error (errs j))
    (hr : ∀ j, j + 1 < k → retryable (errs j) (j + 1) = true)
    (hstop : retryable (errs (k - 1)) k = false) :
    ∀ fuel attempt last, attempt + fuel = A → attempt < k →
      retryGo op retryable d none A fuel attempt last
        = (k, Except.error (errs (k - 1))) := by
  intro fuel
  induction fuel with
  | zero => intro attempt last h0 hak; omega
  | succ f ih =>
    intro attempt last hA hak
    rw [retryGo, hop attempt hak]
    simp only [sigAborted, waitRun]
    by_cases hke : attempt + 1 = k
    · have hd : decide (attempt + 1 < A) = true := by simp; omega
      have heq : attempt = k - 1 := by omega
      have hstop' : retryable (errs attempt) (attempt + 1) = false := by
        rw [hke, heq]; exact hstop
      simp only [hstop', Bool.and_false, Bool.false_eq_true, if_false]
      rw [hke, heq]
    · have hlt : attempt + 1 < k := by omega
      have hd : decide (attempt + 1 < A) = true := by simp; omega
      have hrt : retryable (errs attempt) (attempt + 1) = true := hr attempt hlt
      simp only [hd, hrt, Bool.and_true, if_true, Bool.false_eq_true, if_false]
      exact ih (attempt + 1) (errs attempt) (by omega) hlt

/-- Claim C2 (amended): if the retryable predicate returns false when consulted
with the post-increment attempt counter k before `attempts` is reached, `retry`
stops after exactly k total invocations of the target (not k+1) and fails with
that attempt's error. -/
theorem retry_predicate_stop_after_k_invocations {α : Type} (op : Nat → Except JSVal α)
    (errs : Nat → JSVal) (retryable : JSVal → Nat → Bool) (d : DelayOpt) (N k : Nat)
    (hk : 1 ≤ k) (hkN : k < N)
    (hop : ∀ j, j < k → op j = Except.error (errs j))
    (hr : ∀ j, j + 1 < k → retryable (errs j) (j + 1) = true)
    (hstop : retryable (errs (k - 1)) k = false) :
    retryRun op retryable d none (N : Int) = (k, Except.error (errs (k - 1))) := by
  rw [retryRun]
  have h1 : ¬((N : Int) < 1) := by
    have : 1 ≤ N := by omega
    exact_mod_cast Nat.not_lt.mpr this
  rw [if_neg h1, Int.toNat_ofNat]
  exact retryGo_stop_at_k op errs retryable d N k hk hkN hop hr hstop N 0
    JSVal.jsUndefined (by omega) (by omega)

theorem retry_predicate_stop_witness :
    (retryRun (fun j => Except.error (JSVal.jsNum j)) (fun _ a => !(a == 1))
        (DelayOpt.fixed 0) none (3 : Int) : Nat × Except JSVal Unit)
      = (1, Except.error (JSVal.jsNum 0)) :=
  retry_predicate_stop_after_k_invocations (fun j => Except.error (JSVal.jsNum j))
    (fun j => JSVal.jsNum j) (fun _ a => !(a == 1)) (DelayOpt.fixed 0) 3 1
    (by decide) (by decide) (fun _ _ => rfl)
    (fun j hj => ((Nat.not_lt_zero j) (Nat.lt_of_succ_lt_succ hj)).elim) (by decide)

/-- Counterexample to claim C2 as stated: with attempts = 3 and a predicate
returning false at its first consultation (counter k = 1), the target is
invoked exactly once, not k+1 = 2 times. -/
theorem retry_predicate_stop_counterexample :
    (retryRun (fun j => Except.error (JSVal.jsNum j)) (fun _ a => !(a == 1))
        (DelayOpt.fixed 0) none (3 : Int) : Nat × Except JSVal Unit).1 = 1 ∧
    ¬((retryRun (fun j => Except.error (JSVal.jsNum j)) (fun _ a => !(a == 1))
        (DelayOpt.fixed 0) none (3 : Int) : Nat × Except JSVal Unit).1 = 1 + 1) :=
  ⟨rfl, by decide⟩

/-- Loop invariant for claim C3: if the signal first becomes active exactly at
the catch checkpoint of the a-th invocation (tick 3a), the loop runs
undisturbed up to attempt a, and the failure caught there is settled by
coalescing the signal's reason with the caught error. -/
theorem retryGo_abort_at_catch {α : Type} (op : Nat → Except JSVal α) (errs : Nat → JSVal)
    (retryable : JSVal → Nat → Bool) (d : DelayOpt) (A a : Nat) (e reason : JSVal)
    (hop : ∀ j, j < a → op j = Except.error (errs j))
    (hr : ∀ j, j < a → retryable (errs j) (j + 1) = true)
    (haA : a < A) (hopa : op a = Except.error e) :
    ∀ fuel attempt last, attempt + fuel = A → attempt ≤ a →
      retryGo op retryable d (some ⟨some (3 * a), reason⟩) A fuel attempt last
        = (a + 1, Except.error (jsCoalesce reason e)) := by
  intro fuel
  induction fuel with
  | zero => intro attempt last h0 hat; omega
  | succ f ih =>
    intro attempt last hA hat
    by_cases hcase : attempt = a
    · subst hcase
      rw [retryGo, hopa]
      have hab : sigAborted (some ⟨some (3 * attempt), reason⟩) (3 * attempt) = true := by
        simp [sigAborted]
      simp only [hab, if_true]
      rfl
    · have hlt : attempt < a := by omega
      rw [retryGo, hop attempt hlt]
      have hnc : sigAborted (some ⟨some (3 * a), reason⟩) (3 * attempt) = false := by
        simp [sigAborted]; omega
      have hd : decide (attempt + 1 < A) = true := by simp; omega
      have hrt : retryable (errs attempt) (attempt + 1) = true := hr attempt hlt
      simp only [hnc, Bool.false_eq_true, if_false, hd, hrt, Bool.and_true, if_true]
      have hw : waitRun (delayFor d (attempt + 1)) (some ⟨some (3 * a), reason⟩)
          (3 * attempt + 1) (3 * attempt + 2) = Except.ok () := by
        rw [waitRun]
        have h1 : sigAborted (some ⟨some (3 * a), reason⟩) (3 * attempt + 1) = false := by
          simp [sigAborted]; omega
        have h2 : sigAborted (some ⟨some (3 * a), reason⟩) (3 * attempt + 2) = false := by
          simp [sigAborted]; omega
        rw [h1, h2]; simp
      rw [hw]
      exact ih (attempt + 1) (errs attempt) (by omega) (by omega)

/-- Claim C3 (amended): whenever a target failure is caught inside `retry` and
the cancellation signal is already active — at any attempt index a reached by
the loop, with the signal first observed at that catch point — `retry` fails
immediately after that invocation, preferring the signal's cancellation reason
over the operation's error whenever the reason is not nullish; a null or
undefined reason falls back to the operation's own error (the code throws
`signal.reason ?? error`). -/
theorem retry_cancellation_reason_precedence {α : Type} (op : Nat → Except JSVal α)
    (errs : Nat → JSVal) (retryable : JSVal → Nat → Bool) (d : DelayOpt)
    (N a : Nat) (e reason : JSVal)
    (hop : ∀ j, j < a → op j = Except.error (errs j))
    (hr : ∀ j, j < a → retryable (errs j) (j + 1) = true)
    (haN : a < N) (hopa : op a = Except.error e) :
    retryRun op retryable d (some ⟨some (3 * a), reason⟩) (N : Int)
      = (a + 1, Except.error (if isNullish reason then e else reason)) := by
  rw [retryRun, if_neg (by exact_mod_cast Nat.not_lt.mpr (by omega : 1 ≤ N))]
  rw [Int.toNat_ofNat]
  exact retryGo_abort_at_catch op errs retryable d N a e reason hop hr haN hopa N 0
    JSVal.jsUndefined (by omega) (by omega)

theorem retry_cancellation_reason_witness :
    (retryRun (fun _ => Except.error (JSVal.jsStr "boom")) defaultRetryable
        (DelayOpt.fixed 0) (some ⟨some 3, JSVal.jsStr "stop"⟩) (3 : Int)
      : Nat × Except JSVal Unit)
      = (2, Except.error (if isNullish (JSVal.jsStr "stop") then JSVal.jsStr "boom"
          else JSVal.jsStr "stop")) :=
  retry_cancellation_reason_precedence (fun _ => Except.error (JSVal.jsStr "boom"))
    (fun _ => JSVal.jsStr "boom") defaultRetryable (DelayOpt.fixed 0) 3 1
    (JSVal.jsStr "boom") (JSVal.jsStr "stop") (fun _ _ => rfl) (fun _ _ => rfl)
    (by decide) rfl

/-- Counterexample to claim C3 as stated: with an already-aborted signal whose
reason is null, `retry` fails with the operation's error, not with the reason
surfaced verbatim — so the claim fails for nullish reason values. -/
theorem retry_cancellation_reason_counterexample :
    (retryRun (fun _ => Except.error (JSVal.jsStr "boom")) defaultRetryable
        (DelayOpt.fixed 0) (some ⟨some 0, JSVal.jsNull⟩) (3 : Int)
      : Nat × Except JSVal Unit)
      = (1, Except.error (JSVal.jsStr "boom")) ∧
    JSVal.jsStr "boom" ≠ JSVal.jsNull :=
  ⟨rfl, by decide⟩

/-- Loop invariant for claim C4: if the signal activates during the delay that
follows the a-th failed invocation, the loop settles with the reason after
exactly a+1 invocations. -/
theorem retryGo_abort_in_wait {α : Type} (op : Nat → Except JSVal α) (errs : Nat → JSVal)
    (retryable : JSVal → Nat → Bool) (d : DelayOpt) (A a : Nat) (reason : JSVal)
    (hop : ∀ j, j ≤ a → op j = Except.error (errs j))
    (hr : ∀ j, j ≤ a → retryable (errs j) (j + 1) = true)
    (haA : a + 1 < A) :
    ∀ fuel attempt last, attempt + fuel = A → attempt ≤ a →
      retryGo op retryable d (some ⟨some (3 * a + 2), reason⟩) A fuel attempt last
        = (a + 1, Except.error reason) := by
  intro fuel
  induction fuel with
  | zero => intro attempt last h0 hat; omega
  | succ f ih =>
    intro attempt last hA hat
    rw [retryGo, hop attempt hat]
    have hnc : sigAborted (some ⟨some (3 * a + 2), reason⟩) (3 * attempt) = false := by
      simp [sigAborted]; omega
    have hd : decide (attempt + 1 < A) = true := by simp; omega
    have hrt : retryable (errs attempt) (attempt + 1) = true := hr attempt hat
    simp only [hnc, Bool.false_eq_true, if_false, hd, hrt, Bool.and_true, if_true]
    by_cases hcase : attempt = a
    · have hw : waitRun (delayFor d (attempt + 1)) (some ⟨some (3 * a + 2), reason⟩)
          (3 * attempt + 1) (3 * attempt + 2) = Except.error reason := by
        rw [waitRun]
        have h1 : sigAborted (some ⟨some (3 * a + 2), reason⟩) (3 * attempt + 1) = false := by
          simp [sigAborted]; omega
        have h2 : sigAborted (some ⟨some (3 * a + 2), reason⟩) (3 * attempt + 2) = true := by
          simp [sigAborted]; omega
        rw [h1]; rw [if_neg (by simp)]; rw [h2, if_pos rfl]; rfl
      rw [hw, hcase]
    · have hlt : attempt < a := by omega
      have hw : waitRun (delayFor d (attempt + 1)) (some ⟨some (3 * a + 2), reason⟩)
          (3 * attempt + 1) (3 * attempt + 2) = Except.ok () := by
        rw [waitRun]
        have h1 : sigAborted (some ⟨some (3 * a + 2), reason⟩) (3 * attempt + 1) = false := by
          simp [sigAborted]; omega
        have h2 : sigAborted (some ⟨some (3 * a + 2), reason⟩) (3 * attempt + 2) = false := by
          simp [sigAborted]; omega
        rw [h1, h2]; simp
      rw [hw]
      exact ih (attempt + 1) (errs attempt) (by omega) (by omega)

/-- Claim C4: if the cancellation signal activates while `retry` is suspended
in the inter-attempt delay, the whole call settles with the signal's
cancellation reason and the target is never invoked again (exactly a+1
invocations happen when the abort fires in the delay after invocation a); and
if the signal is already aborted when the delay starts, `wait` rejects
immediately with the reason. -/
theorem retry_abort_during_delay {α : Type} (op : Nat → Except JSVal α) (errs : Nat → JSVal)
    (retryable : JSVal → Nat → Bool) (d : DelayOpt) (N a : Nat) (reason : JSVal)
    (hop : ∀ j, j ≤ a → op j = Except.error (errs j))
    (hr : ∀ j, j ≤ a → retryable (errs j) (j + 1) = true)
    (haN : a + 1 < N) :
    retryRun op retryable d (some ⟨some (3 * a + 2), reason⟩) (N : Int)
        = (a + 1, Except.error reason) ∧
    (∀ ms signal tEntry tElapse, sigAborted signal tEntry = true →
        waitRun ms signal tEntry tElapse = Except.error (sigReason signal)) := by
  constructor
  · rw [retryRun, if_neg (by exact_mod_cast Nat.not_lt.mpr (by omega))]
    rw [Int.toNat_ofNat]
    exact retryGo_abort_in_wait op errs retryable d N a reason hop hr haN N 0
      JSVal.jsUndefined (by omega) (by omega)
  · intro ms signal tEntry tElapse h
    rw [waitRun, h, if_pos rfl]

theorem retry_abort_during_delay_witness :
    (retryRun (fun j => Except.error (JSVal.jsNum j)) defaultRetryable
        (DelayOpt.fixed 50) (some ⟨some 2, JSVal.jsStr "cancelled"⟩) (3 : Int)
      : Nat × Except JSVal Unit)
      = (1, Except.error (JSVal.jsStr "cancelled")) ∧
    waitRun 50 (some ⟨some 0, JSVal.jsStr "cancelled"⟩) 0 1
      = Except.error (sigReason (some ⟨some 0, JSVal.jsStr "cancelled"⟩)) := by
  have h := @retry_abort_during_delay Unit (fun j => Except.error (JSVal.jsNum j))
    (fun j => JSVal.jsNum j) defaultRetryable (DelayOpt.fixed 50) 3 0
    (JSVal.jsStr "cancelled") (fun _ _ => rfl) (fun _ _ => rfl) (by decide)
  exact ⟨h.1, h.2 50 (some ⟨some 0, JSVal.jsStr "cancelled"⟩) 0 1 rfl⟩

/-- Claim C6: for every attempts value < 1, `retry` fails with the
configuration error before any attempt, and the target is invoked zero
times. -/
theorem retry_invalid_attempts_config_error {α : Type} (op : Nat → Except JSVal α)
    (retryable : JSVal → Nat → Bool) (d : DelayOpt) (signal : Option SignalM)
    (attempts : Int) (h : attempts < 1) :
    retryRun op retryable d signal attempts
      = (0, Except.error (JSVal.jsError "retry: attempts must be at least 1")) := by
  rw [retryRun, if_pos h]

theorem retry_invalid_attempts_witness :
    (0 : Int) < 1 ∧
      (retryRun (fun j => Except.error (JSVal.jsNum j)) defaultRetryable
          (DelayOpt.fixed 0) none (0 : Int) : Nat × Except JSVal Unit)
        = (0, Except.error (JSVal.jsError "retry: attempts must be at least 1")) :=
  ⟨by decide, retry_invalid_attempts_config_error (fun j => Except.error (JSVal.jsNum j))
      defaultRetryable (DelayOpt.fixed 0) none 0 (by decide)⟩

/-- Counterexample to claim C5 as stated: with the jitter sample at its lower
end (rand = 0, jitter factor 0.85) the default delay for attempt index 1 is
340 ms, which is below the claimed lower bound of 400 ms. -/
theorem defaultDelay_attempt1_counterexample :
    defaultDelay 1 0 = 340 ∧ ¬(400 ≤ (340 : ℤ)) := by
  constructor
  · norm_num [defaultDelay, jsRound]
  · norm_num

/-- Claim C5 (amended): for attempt index 1 the default backoff delay (base
200 ms doubled once, jitter factor in [0.85, 1.15)) always lies in the
interval [340, 460] ms, not [400, 460]. -/
theorem defaultDelay_attempt1_bounds (rand : ℚ) (h0 : 0 ≤ rand) (h1 : rand < 1) :
    340 ≤ defaultDelay 1 rand ∧ defaultDelay 1 rand ≤ 460 := by
  rw [defaultDelay, jsRound]
  have hq : (200 : ℚ) * 2 ^ 1 * (rand * (3 / 10) + 17 / 20) = 120 * rand + 340 := by ring
  rw [hq]
  constructor
  · rw [Int.le_floor]
    push_cast
    linarith
  · have : (120 : ℚ) * rand + 340 + 1 / 2 < 461 := by linarith
    have hf := Int.floor_lt.mpr (by push_cast; linarith :
      (120 : ℚ) * rand + 340 + 1 / 2 < ((461 : ℤ) : ℚ))
    omega

theorem defaultDelay_attempt1_bounds_witness :
    (0 : ℚ) ≤ 1 / 2 ∧ (1 : ℚ) / 2 < 1 ∧
      (340 ≤ defaultDelay 1 (1 / 2) ∧ defaultDelay 1 (1 / 2) ≤ 460) :=
  ⟨by norm_num, by norm_num, defaultDelay_attempt1_bounds (1 / 2) (by norm_num) (by norm_num)⟩

theorem containsSubstr_ne_empty (x : String) (h : containsSubstr x "json" = true) :
    (x != "") = true := by
  cases hx : x == "" with
  | true =>
    rw [beq_iff_eq] at hx
    rw [hx] at h
    exact absurd h (by decide)
  | false => simp [bne, hx]

theorem strTrim_empty : strTrim "" = "" := rfl

theorem extract_ne_empty (j : Json) (m : String)
    (h : extractErrorMessage j = some m) : m ≠ "" := by
  cases j with
  | jstr s =>
    rw [extractErrorMessage] at h
    by_cases hs : strTrim s ≠ ""
    · rw [if_pos hs] at h
      cases h
      intro he
      rw [he] at hs
      exact hs strTrim_empty
    · rw [if_neg hs] at h; cases h
  | jobj fields =>
    rw [extractErrorMessage] at h
    split at h
    · rename_i m0 heq
      by_cases hm : strTrim m0 ≠ ""
      · rw [if_pos hm] at h
        cases h
        exact hm
      · rw [if_neg hm] at h; cases h
    · cases h
  | jnull => cases h
  | jbool b => cases h
  | jnum q => cases h
  | jarr es => cases h

/-- Claim C8: for every failing (non-success) response, `fetcher` throws an
HTTP error whose message comes from the JSON-decoded body via
`extractErrorMessage` (the `message` field, exactly "Boom" for the body
consisting of a message field "Boom", or a plain non-empty string body); when
extraction fails or yields nothing the message is the generic fallback with
the numeric status code, and decoding the error body never throws outward. -/
theorem fetcher_error_extraction (method : String) (r : ResponseM)
    (h : responseOk r = false) :
    (∃ m, classifyResponse method r = Except.error (FetchError.httpError m)) ∧
    (∀ j m, jsonParse r.body = Except.ok j → extractErrorMessage j = some m →
        classifyResponse method r = Except.error (FetchError.httpError m)) ∧
    (∀ j, jsonParse r.body = Except.ok j → extractErrorMessage j = none →
        classifyResponse method r
          = Except.error (FetchError.httpError (statusFallback r.status))) ∧
    (jsonParse r.body = Except.error () →
        classifyResponse method r
          = Except.error (FetchError.httpError (statusFallback r.status))) ∧
    extractErrorMessage (Json.jobj [("message", Json.jstr "Boom")]) = some "Boom" := by
  refine ⟨?_, ?_, ?_, ?_, rfl⟩
  · refine ⟨jsTruthyOr
      (match jsonParse r.body with
        | Except.ok v => extractErrorMessage v
        | Except.error _ => none) (statusFallback r.status), ?_⟩
    rw [classifyResponse, if_pos h]
  · intro j m hp he
    have hm := extract_ne_empty j m he
    simp [classifyResponse, h, hp, he, jsTruthyOr, hm]
  · intro j hp he
    simp [classifyResponse, h, hp, he, jsTruthyOr]
  · intro hp
    simp [classifyResponse, h, hp, jsTruthyOr]

theorem fetcher_error_extraction_witness :
    responseOk ⟨500, [], "\x7b\"message\":\"Boom\"\x7d"⟩ = false ∧
      classifyResponse "GET" ⟨500, [], "\x7b\"message\":\"Boom\"\x7d"⟩
        = Except.error (FetchError.httpError "Boom") :=
  ⟨rfl, (fetcher_error_extraction "GET" ⟨500, [], "\x7b\"message\":\"Boom\"\x7d"⟩ rfl).2.1
    (Json.jobj [("message", Json.jstr "Boom")]) "Boom" rfl rfl⟩

/-- Claim C7: response classification — a 204 response to a GET yields the
absence-of-value sentinel regardless of body content; a JSON-flavored 200
response whose text body is empty after trimming yields the sentinel; and a
JSON-flavored 200 response whose body is an object mapping "hello" to "world"
yields the parsed mapping. -/
theorem fetcher_response_classification :
    (∀ hs body, classifyResponse "GET" ⟨204, hs, body⟩ = Except.ok FetchValue.undef) ∧
    (∀ hs body ct, headersGet hs "content-type" = some ct →
        containsSubstr (strLower ct) "json" = true → strTrim body = "" →
        classifyResponse "GET" ⟨200, hs, body⟩ = Except.ok FetchValue.undef) ∧
    (∀ hs ct, headersGet hs "content-type" = some ct →
        containsSubstr (strLower ct) "json" = true →
        contentLengthZero hs = false →
        classifyResponse "GET" ⟨200, hs, "\x7b\"hello\":\"world\"\x7d"⟩
          = Except.ok (FetchValue.json (Json.jobj [("hello", Json.jstr "world")]))) := by
  refine ⟨?_, ?_, ?_⟩
  · intro hs body
    have hok : responseOk ⟨204, hs, body⟩ = true := rfl
    have hnc : responseHasNoContent "GET" ⟨204, hs, body⟩ = true := by
      simp [responseHasNoContent]
    rw [classifyResponse]
    rw [if_neg (by rw [hok]; decide)]
    rw [if_pos hnc]
  · intro hs body ct hget hjson htrim
    have hok : responseOk ⟨200, hs, body⟩ = true := rfl
    rw [classifyResponse]
    rw [if_neg (by rw [hok]; decide)]
    by_cases hnc : responseHasNoContent "GET" ⟨200, hs, body⟩ = true
    · rw [if_pos hnc]
    · rw [if_neg hnc]
      have hget' : headersGet (⟨200, hs, body⟩ : ResponseM).headers "content-type"
          = some ct := hget
      simp only [hget']
      rw [if_pos (by rw [containsSubstr_ne_empty (strLower ct) hjson, hjson]; rfl)]
      have htrim' : strTrim (⟨200, hs, body⟩ : ResponseM).body = "" := htrim
      rw [if_pos htrim']
  · intro hs ct hget hjson hcl
    have hok : responseOk ⟨200, hs, "\x7b\"hello\":\"world\"\x7d"⟩ = true := rfl
    rw [classifyResponse]
    rw [if_neg (by rw [hok]; decide)]
    have hnc : responseHasNoContent "GET" ⟨200, hs, "\x7b\"hello\":\"world\"\x7d"⟩ = false := by
      simp only [responseHasNoContent]
      simp [hcl]
    rw [if_neg (by rw [hnc]; decide)]
    have hget' : headersGet (⟨200, hs, "\x7b\"hello\":\"world\"\x7d"⟩ : ResponseM).headers
        "content-type" = some ct := hget
    simp only [hget']
    rw [if_pos (by rw [containsSubstr_ne_empty (strLower ct) hjson, hjson]; rfl)]
    rw [if_neg (by decide)]
    rfl

theorem fetcher_response_classification_witness :
    classifyResponse "GET" ⟨204, [], "ignored"⟩ = Except.ok FetchValue.undef ∧
    classifyResponse "GET" ⟨200, [("content-type", "application/json")], " "⟩
      = Except.ok FetchValue.undef ∧
    classifyResponse "GET" ⟨200, [("content-type", "application/json")],
        "\x7b\"hello\":\"world\"\x7d"⟩
      = Except.ok (FetchValue.json (Json.jobj [("hello", Json.jstr "world")])) :=
  ⟨fetcher_response_classification.1 [] "ignored",
   fetcher_response_classification.2.1 [("content-type", "application/json")] " "
     "application/json" rfl rfl rfl,
   fetcher_response_classification.2.2 [("content-type", "application/json")]
     "application/json" rfl rfl rfl⟩

theorem find_append_absent (hs : List (String × String)) (key v : String)
    (h : hs.any (fun p => p.1 == key) = false) :
    (hs ++ [(key, v)]).find? (fun p => p.1 == key) = some (key, v) := by
  induction hs with
  | nil => simp [List.find?]
  | cons p rest ih =>
    simp only [List.any_cons, Bool.or_eq_false_iff] at h
    simp only [List.cons_append]
    rw [List.find?_cons_of_neg _ (by rw [h.1]; exact Bool.false_ne_true)]
    exact ih h.2

theorem headersGet_set_fresh (hs : List (String × String))
    (h : headersHas hs "Content-Type" = false) :
    headersGet (headersSet hs "Content-Type" "application/json") "Content-Type"
      = some "application/json" := by
  rw [headersSet, h]
  rw [if_neg Bool.false_ne_true]
  rw [headersGet]
  have hl : strLower "Content-Type" = "content-type" := rfl
  rw [hl]
  have h' : hs.any (fun p => p.1 == "content-type") = false := by
    rw [headersHas, hl] at h
    exact h
  rw [find_append_absent hs "content-type" "application/json" h']
  rfl

theorem headersHas_delete (hs : List (String × String)) (k : String) :
    headersHas (headersDelete hs k) k = false := by
  rw [headersHas, headersDelete]
  rw [List.any_eq_false]
  intro p hp
  rw [List.mem_filter] at hp
  have := hp.2
  intro hcon
  rw [hcon] at this
  exact absurd this (by decide)

/-- Claim C9: a plain-object or array body with no caller-supplied
content-type is serialized to JSON text and a JSON content-type header is set;
a caller-set content-type is left untouched; a FormData body is passed through
unmodified with any caller-set content-type header removed. -/
theorem fetcher_body_serialization :
    (∀ m hs fs, headersHas (headersNormalize hs) "Content-Type" = false →
      (buildRequest ⟨m, hs, some (BodyInitV.jsObj fs)⟩).body
          = some (SentBody.text (jsonStringify (Json.jobj fs))) ∧
        headersGet (buildRequest ⟨m, hs, some (BodyInitV.jsObj fs)⟩).headers "Content-Type"
          = some "application/json") ∧
    (∀ m hs es, headersHas (headersNormalize hs) "Content-Type" = false →
      (buildRequest ⟨m, hs, some (BodyInitV.jsArr es)⟩).body
          = some (SentBody.text (jsonStringify (Json.jarr es))) ∧
        headersGet (buildRequest ⟨m, hs, some (BodyInitV.jsArr es)⟩).headers "Content-Type"
          = some "application/json") ∧
    (∀ m hs fs, headersHas (headersNormalize hs) "Content-Type" = true →
      (buildRequest ⟨m, hs, some (BodyInitV.jsObj fs)⟩).headers = headersNormalize hs ∧
        (buildRequest ⟨m, hs, some (BodyInitV.jsObj fs)⟩).body
          = some (SentBody.text (jsonStringify (Json.jobj fs)))) ∧
    (∀ m hs es,
      (buildRequest ⟨m, hs, some (BodyInitV.formData es)⟩).body
          = some (SentBody.formData es) ∧
        (buildRequest ⟨m, hs, some (BodyInitV.formData es)⟩).headers
          = headersDelete (headersNormalize hs) "Content-Type" ∧
        headersHas (buildRequest ⟨m, hs, some (BodyInitV.formData es)⟩).headers "Content-Type"
          = false) := by
  refine ⟨?_, ?_, ?_, ?_⟩
  · intro m hs fs h
    rw [buildRequest]
    simp only [h]
    exact ⟨trivial, headersGet_set_fresh (headersNormalize hs) h⟩
  · intro m hs es h
    rw [buildRequest]
    simp only [h]
    exact ⟨trivial, headersGet_set_fresh (headersNormalize hs) h⟩
  · intro m hs fs h
    rw [buildRequest]
    simp only [h]
    exact ⟨if_pos trivial, trivial⟩
  · intro m hs es
    rw [buildRequest]
    exact ⟨rfl, rfl, headersHas_delete (headersNormalize hs) "Content-Type"⟩

theorem fetcher_body_serialization_witness :
    headersHas (headersNormalize [("Accept", "text/plain")]) "Content-Type" = false ∧
    (buildRequest ⟨"POST", [("Accept", "text/plain")],
        some (BodyInitV.jsObj [("title", Json.jstr "Ship")])⟩).body
      = some (SentBody.text (jsonStringify (Json.jobj [("title", Json.jstr "Ship")]))) ∧
    headersGet (buildRequest ⟨"POST", [("Accept", "text/plain")],
        some (BodyInitV.jsObj [("title", Json.jstr "Ship")])⟩).headers "Content-Type"
      = some "application/json" ∧
    (buildRequest ⟨"POST", [("Content-Type", "text/csv")],
        some (BodyInitV.formData [("a", "b")])⟩).headers
      = headersDelete (headersNormalize [("Content-Type", "text/csv")]) "Content-Type" :=
  ⟨rfl,
   (fetcher_body_serialization.1 "POST" [("Accept", "text/plain")]
     [("title", Json.jstr "Ship")] rfl).1,
   (fetcher_body_serialization.1 "POST" [("Accept", "text/plain")]
     [("title", Json.jstr "Ship")] rfl).2,
   (fetcher_body_serialization.2.2.2 "POST" [("Content-Type", "text/csv")] [("a", "b")]).2.1⟩

namespace HandyFn

/-- Claim C10 (amended): `tryCatch` never rejects — for every input it
resolves to a two-element tuple, the value paired with null on success and
null paired with the error on failure; at least one side is always null, and
exactly one side is non-null except when the resolved value or thrown error is
itself null. -/
theorem tryCatch_result_tuple (fetchModel : String → Except JSVal JSVal)
    (input : TryCatchInput) :
    (∀ d, resolveInput fetchModel input = Except.ok d →
        tryCatch fetchModel input = (d, JSVal.jsNull)) ∧
    (∀ e, resolveInput fetchModel input = Except.error e →
        tryCatch fetchModel input = (JSVal.jsNull, e)) ∧
    ((tryCatch fetchModel input).1 = JSVal.jsNull ∨
        (tryCatch fetchModel input).2 = JSVal.jsNull) := by
  refine ⟨?_, ?_, ?_⟩
  · intro d h; rw [tryCatch, h]
  · intro e h; rw [tryCatch, h]
  · rw [tryCatch]
    cases resolveInput fetchModel input with
    | ok d => right; rfl
    | error e => left; rfl

theorem tryCatch_result_tuple_witness :
    tryCatch (fun _ => Except.error (JSVal.jsStr "net")) 
        (TryCatchInput.thunk (fun _ => Except.ok (JSVal.jsStr "done")))
      = (JSVal.jsStr "done", JSVal.jsNull) ∧
    tryCatch (fun _ => Except.error (JSVal.jsStr "net"))
        (TryCatchInput.thunk (fun _ => Except.error (JSVal.jsError "thrown")))
      = (JSVal.jsNull, JSVal.jsError "thrown") :=
  ⟨(tryCatch_result_tuple (fun _ => Except.error (JSVal.jsStr "net"))
      (TryCatchInput.thunk (fun _ => Except.ok (JSVal.jsStr "done")))).1
    (JSVal.jsStr "done") rfl,
   (tryCatch_result_tuple (fun _ => Except.error (JSVal.jsStr "net"))
      (TryCatchInput.thunk (fun _ => Except.error (JSVal.jsError "thrown")))).2.1
    (JSVal.jsError "thrown") rfl⟩

/-- Counterexample to claim C10 as stated: a thunk that throws null makes
`tryCatch` resolve to a tuple whose two sides are both null, so it is not the
case that exactly one side is the non-null one for every input. -/
theorem tryCatch_both_null_counterexample :
    tryCatch (fun _ => Except.ok JSVal.jsUndefined)
        (TryCatchInput.thunk (fun _ => Except.error JSVal.jsNull))
      = (JSVal.jsNull, JSVal.jsNull) ∧
    (tryCatch (fun _ => Except.ok JSVal.jsUndefined)
        (TryCatchInput.thunk (fun _ => Except.error JSVal.jsNull))).1 = JSVal.jsNull ∧
    (tryCatch (fun _ => Except.ok JSVal.jsUndefined)
        (TryCatchInput.thunk (fun _ => Except.error JSVal.jsNull))).2 = JSVal.jsNull :=
  ⟨rfl, rfl, rfl⟩

end HandyFn
